import Mathlib

/-!
Verification development for the hexa policy tooling repository
(policy translation and reconciliation engine).

The definitions below are a shallow embedding of the Go source:

* section 1 embeds the Cedar policy JSON translation layer of
  src/cmd/hexa/policyInfoModel.go (a vendored copy of the cedar-go JSON
  mapper): the AST node and scope unions, the JSON node structure, the
  canonical-to-tree translators NodeJSON.FromNode and ScopeJSON.FromNode,
  the node serializer NodeJSON.MarshalJSON and the policy serializer
  Policy.MarshalJSON;
* section 2 models the gcpBind role-binding mapper (MapPoliciesToBindings,
  MapBindingAssignmentsToPolicy, ParseFile) from the specification, since
  that package is exercised by the repository tests but its source is not
  part of this tree;
* section 3 models the policy-set reconciliation algorithm
  (ReconcilePolicies) from the specification, for the same reason;
* section 4 embeds GoogleClient.GetAppEngineApplications of
  src/providers/googlecloud/iapProvider/google_client.go.

Go machine integers do not occur on any modelled path; fallible Go code is
modelled with explicit result types.  A Go function that can terminate by
panicking is modelled with the TransResult type whose `panicked` case is the
panic: a panic aborts the call and hands no return value to the caller, so it
is distinct from returning an error value.
-/

namespace Spec2Proof

/-! ## Section 1: the Cedar JSON translation layer -/

/-- EntityUID models the external cedar-go types.EntityUID value: an entity
type name paired with an entity id.  The ImplicitlyMarshaledEntityUID wrapper
used by the Go code is a marshalling wrapper with the same data. -/
structure EntityUID where
  entityType : String
  id : String
deriving DecidableEq, Repr

/-- Decimal models the external cedar-go types.Decimal value abstractly by
the string the Go method Decimal.String returns for it, which is the only
facet of a Decimal the translation layer uses. -/
structure Decimal where
  strRep : String
deriving DecidableEq, Repr

/-- IPAddr models the external cedar-go types.IPAddr value abstractly by the
string the Go method IPAddr.String returns for it. -/
structure IPAddr where
  strRep : String
deriving DecidableEq, Repr

/-- Value models the external cedar-go types.Value union of runtime values.
The translation layer in the source only discriminates Decimal and IPAddr
and treats every other value generically, so the scalar cases suffice. -/
inductive Value where
  | boolean (b : Bool)
  | long (i : Int)
  | string (s : String)
  | entityUID (e : EntityUID)
  | decimal (d : Decimal)
  | ipaddr (a : IPAddr)
deriving DecidableEq, Repr

/-- ValueJSON embeds the Go struct holding a marshalled leaf value
(field V). -/
structure ValueJSON where
  V : Value
deriving DecidableEq, Repr

/-- IsScopeNode embeds the Go interface ast.IsScopeNode together with its six
known implementations (the closed scope union of the source switch in
ScopeJSON.FromNode).  The extra case `unknownScope` stands for a value of the
open Go interface whose dynamic type lies outside the closed union; it
carries the string the Go verb %T would print for that dynamic type. -/
inductive IsScopeNode where
  | scopeTypeAll
  | scopeTypeEq (entity : EntityUID)
  | scopeTypeIn (entity : EntityUID)
  | scopeTypeInSet (entities : List EntityUID)
  | scopeTypeIs (entityType : String)
  | scopeTypeIsIn (entityType : String) (entity : EntityUID)
  | unknownScope (goType : String)
deriving DecidableEq, Repr

/-- scopeInJSON embeds the Go struct scopeInJSON (the `in` payload of an
`is`-scope). -/
structure scopeInJSON where
  Entity : EntityUID
deriving DecidableEq, Repr

/-- ScopeJSON embeds the Go struct ScopeJSON: an operator discriminator plus
the optional payload fields the operator dictates.  The Go zero value has
empty strings, nil pointers and a nil slice. -/
structure ScopeJSON where
  Op : String := ""
  Entity : Option EntityUID := none
  Entities : List EntityUID := []
  EntityType : String := ""
  In : Option scopeInJSON := none
deriving DecidableEq, Repr

/-- TransResult is the outcome of running a Go function that returns a value
of type α or panics: `ok` is a normal return, `panicked` is a Go panic with
its message.  A panic is an abnormal termination; it is not an error value
returned to the caller. -/
inductive TransResult (α : Type) where
  | ok (val : α)
  | panicked (msg : String)
deriving Repr

/-- TransResult.bind sequences two steps of a computation that can panic:
a panic in the first step aborts the whole computation, exactly as a Go
panic propagates out of nested calls. -/
def TransResult.bind {α β : Type} : TransResult α → (α → TransResult β) → TransResult β
  | .ok a, f => f a
  | .panicked m, _ => .panicked m

/-- ScopeJSON.FromNode embeds the Go method ScopeJSON.FromNode of
src/cmd/hexa/policyInfoModel.go: a switch on the dynamic scope type that
fills the receiver (starting from its zero value) and, in the default case,
panics with the message built from the format string
"unknown scope type %T". -/
def ScopeJSON.FromNode : IsScopeNode → TransResult ScopeJSON
  | .scopeTypeAll => .ok { Op := "All" }
  | .scopeTypeEq e => .ok { Op := "==", Entity := some e }
  | .scopeTypeIn e => .ok { Op := "in", Entity := some e }
  | .scopeTypeInSet es => .ok { Op := "in", Entities := es }
  | .scopeTypeIs ty => .ok { Op := "is", EntityType := ty }
  | .scopeTypeIsIn ty e => .ok { Op := "is", EntityType := ty, In := some ⟨e⟩ }
  | .unknownScope goType => .panicked ("unknown scope type " ++ goType)

mutual

/-- IsNode embeds the Go interface ast.IsNode together with the closed set of
node types matched by the switch in NodeJSON.FromNode (source lines 356-497).
Lists are first-order (IsNodeList, IsNodeRecord) so that all recursion is
structural.  The extra case `unknownNode` stands for a value of the open Go
interface whose dynamic type lies outside the closed union; it carries the
string the %T verb would print. -/
inductive IsNode where
  | nodeValue (v : Value)
  | nodeTypeVariable (name : String)
  | nodeTypeNot (arg : IsNode)
  | nodeTypeNegate (arg : IsNode)
  | nodeTypeAdd (left : IsNode) (right : IsNode)
  | nodeTypeAnd (left : IsNode) (right : IsNode)
  | nodeTypeContains (left : IsNode) (right : IsNode)
  | nodeTypeContainsAll (left : IsNode) (right : IsNode)
  | nodeTypeContainsAny (left : IsNode) (right : IsNode)
  | nodeTypeEquals (left : IsNode) (right : IsNode)
  | nodeTypeGreaterThan (left : IsNode) (right : IsNode)
  | nodeTypeGreaterThanOrEqual (left : IsNode) (right : IsNode)
  | nodeTypeIn (left : IsNode) (right : IsNode)
  | nodeTypeLessThan (left : IsNode) (right : IsNode)
  | nodeTypeLessThanOrEqual (left : IsNode) (right : IsNode)
  | nodeTypeMult (left : IsNode) (right : IsNode)
  | nodeTypeNotEquals (left : IsNode) (right : IsNode)
  | nodeTypeOr (left : IsNode) (right : IsNode)
  | nodeTypeSub (left : IsNode) (right : IsNode)
  | nodeTypeGetTag (left : IsNode) (right : IsNode)
  | nodeTypeHasTag (left : IsNode) (right : IsNode)
  | nodeTypeAccess (arg : IsNode) (value : String)
  | nodeTypeHas (arg : IsNode) (value : String)
  | nodeTypeIs (left : IsNode) (entityType : String)
  | nodeTypeIsIn (left : IsNode) (entityType : String) (entity : IsNode)
  | nodeTypeLike (arg : IsNode) (value : String)
  | nodeTypeIfThenElse (condIf : IsNode) (condThen : IsNode) (condElse : IsNode)
  | nodeTypeSet (elements : IsNodeList)
  | nodeTypeRecord (elements : IsNodeRecord)
  | nodeTypeExtensionCall (name : String) (args : IsNodeList)
  | unknownNode (goType : String)

inductive IsNodeList where
  | nil
  | cons (head : IsNode) (tail : IsNodeList)

inductive IsNodeRecord where
  | nil
  | cons (key : String) (val : IsNode) (tail : IsNodeRecord)

end

mutual

/-- NodeJSON embeds the Go struct NodeJSON of the cedar-go JSON layer: one
struct with one optional field per operator, in the field order documented by
the source comments (Value, Var, the unary operators, the binary operators,
the string operators, is, like, if-then-else, Set, Record, and the extension
call map, which carries the Go json tag "-").  Optional pointer fields are
the Opt* types below (a nil pointer is `none`); slice- and map-valued fields
distinguish nil from a populated value via OptNodeList/OptRecordList, and the
extension-call map is a first-order association list ExtList.  All child
nodes are again NodeJSON, so the types are one mutual first-order family. -/
inductive NodeJSON where
  | mk (value : Option ValueJSON) (var : Option String)
       (notOp : OptUnary) (negate : OptUnary)
       (add : OptBinary) (andOp : OptBinary) (contains : OptBinary)
       (containsAll : OptBinary) (containsAny : OptBinary) (equals : OptBinary)
       (greaterThan : OptBinary) (greaterThanOrEqual : OptBinary) (inOp : OptBinary)
       (lessThan : OptBinary) (lessThanOrEqual : OptBinary) (multiply : OptBinary)
       (notEquals : OptBinary) (orOp : OptBinary) (subtract : OptBinary)
       (getTag : OptBinary) (hasTag : OptBinary)
       (access : OptStrOp) (has : OptStrOp)
       (isOp : OptIs) (like : OptLike) (ifThenElse : OptIf)
       (set : OptNodeList) (record : OptRecordList) (extensionCall : ExtList)

inductive OptUnary where
  | none
  | some (Arg : NodeJSON)

inductive OptBinary where
  | none
  | some (Left : NodeJSON) (Right : NodeJSON)

inductive OptStrOp where
  | none
  | some (Left : NodeJSON) (Attr : String)

inductive OptNode where
  | none
  | some (n : NodeJSON)

inductive OptIs where
  | none
  | some (Left : NodeJSON) (EntityType : String) (In : OptNode)

inductive OptLike where
  | none
  | some (Left : NodeJSON) (Pattern : String)

inductive OptIf where
  | none
  | some (If : NodeJSON) (Then : NodeJSON) (Else : NodeJSON)

inductive NodeList where
  | nil
  | cons (head : NodeJSON) (tail : NodeList)

inductive OptNodeList where
  | none
  | some (l : NodeList)

inductive RecordList where
  | nil
  | cons (key : String) (val : NodeJSON) (tail : RecordList)

inductive OptRecordList where
  | none
  | some (l : RecordList)

inductive ExtList where
  | nil
  | cons (name : String) (args : NodeList) (tail : ExtList)

end

/-- NodeList.length is the length of a first-order node list. -/
def NodeList.length : NodeList → Nat
  | .nil => 0
  | .cons _ t => 1 + t.length

/-- ExtList.length is the number of entries of the extension-call map,
matching the Go expression len(j.ExtensionCall). -/
def ExtList.length : ExtList → Nat
  | .nil => 0
  | .cons _ _ t => 1 + t.length

/-- RecordList.length is the length of a first-order record list. -/
def RecordList.length : RecordList → Nat
  | .nil => 0
  | .cons _ _ t => 1 + t.length

/-- NodeJSON.empty is the Go zero value of the NodeJSON struct: every pointer
nil, every slice and map nil. -/
def NodeJSON.empty : NodeJSON :=
  .mk none none .none .none .none .none .none .none .none .none .none .none .none
     .none .none .none .none .none .none .none .none .none .none .none .none .none
     .none .none .nil

/-- NodeJSON.extensionCallOf reads the ExtensionCall field of a node. -/
def NodeJSON.extensionCallOf : NodeJSON → ExtList
  | .mk _ _ _ _ _ _ _ _ _ _ _ _ _ _ _ _ _ _ _ _ _ _ _ _ _ _ _ _ ex => ex

/-- NodeJSON.valueOf reads the Value field of a node. -/
def NodeJSON.valueOf : NodeJSON → Option ValueJSON
  | .mk v _ _ _ _ _ _ _ _ _ _ _ _ _ _ _ _ _ _ _ _ _ _ _ _ _ _ _ _ => v

/-- NodeJSON.ofValue is the node whose only populated field is Value,
as built by the plain-literal branch of NodeJSON.FromNode. -/
def NodeJSON.ofValue (v : Value) : NodeJSON :=
  .mk (some ⟨v⟩) none .none .none .none .none .none .none .none .none .none .none .none
     .none .none .none .none .none .none .none .none .none .none .none .none .none
     .none .none .nil

/-- NodeJSON.ofVar is the node whose only populated field is Var. -/
def NodeJSON.ofVar (s : String) : NodeJSON :=
  .mk none (some s) .none .none .none .none .none .none .none .none .none .none .none
     .none .none .none .none .none .none .none .none .none .none .none .none .none
     .none .none .nil

/-- NodeJSON.ofNot is the node whose only populated field is the `!`
operator, as built by unaryToJSON into the Not field. -/
def NodeJSON.ofNot (u : NodeJSON) : NodeJSON :=
  .mk none none (.some u) .none .none .none .none .none .none .none .none .none .none
     .none .none .none .none .none .none .none .none .none .none .none .none .none
     .none .none .nil

/-- NodeJSON.ofNegate is the node whose only populated field is the `neg`
operator. -/
def NodeJSON.ofNegate (u : NodeJSON) : NodeJSON :=
  .mk none none .none (.some u) .none .none .none .none .none .none .none .none .none
     .none .none .none .none .none .none .none .none .none .none .none .none .none
     .none .none .nil

/-- NodeJSON.ofAdd is the node whose only populated field is Add, as built
by binaryToJSON into the Add field; the other sixteen binary builders below
fill their respective fields the same way. -/
def NodeJSON.ofAdd (l r : NodeJSON) : NodeJSON :=
  .mk none none .none .none (.some l r) .none .none .none .none .none .none .none .none
     .none .none .none .none .none .none .none .none .none .none .none .none .none
     .none .none .nil

/-- NodeJSON.ofAnd fills the And field. -/
def NodeJSON.ofAnd (l r : NodeJSON) : NodeJSON :=
  .mk none none .none .none .none (.some l r) .none .none .none .none .none .none .none
     .none .none .none .none .none .none .none .none .none .none .none .none .none
     .none .none .nil

/-- NodeJSON.ofContains fills the Contains field. -/
def NodeJSON.ofContains (l r : NodeJSON) : NodeJSON :=
  .mk none none .none .none .none .none (.some l r) .none .none .none .none .none .none
     .none .none .none .none .none .none .none .none .none .none .none .none .none
     .none .none .nil

/-- NodeJSON.ofContainsAll fills the ContainsAll field. -/
def NodeJSON.ofContainsAll (l r : NodeJSON) : NodeJSON :=
  .mk none none .none .none .none .none .none (.some l r) .none .none .none .none .none
     .none .none .none .none .none .none .none .none .none .none .none .none .none
     .none .none .nil

/-- NodeJSON.ofContainsAny fills the ContainsAny field. -/
def NodeJSON.ofContainsAny (l r : NodeJSON) : NodeJSON :=
  .mk none none .none .none .none .none .none .none (.some l r) .none .none .none .none
     .none .none .none .none .none .none .none .none .none .none .none .none .none
     .none .none .nil

/-- NodeJSON.ofEquals fills the Equals field. -/
def NodeJSON.ofEquals (l r : NodeJSON) : NodeJSON :=
  .mk none none .none .none .none .none .none .none .none (.some l r) .none .none .none
     .none .none .none .none .none .none .none .none .none .none .none .none .none
     .none .none .nil

/-- NodeJSON.ofGreaterThan fills the GreaterThan field. -/
def NodeJSON.ofGreaterThan (l r : NodeJSON) : NodeJSON :=
  .mk none none .none .none .none .none .none .none .none .none (.some l r) .none .none
     .none .none .none .none .none .none .none .none .none .none .none .none .none
     .none .none .nil

/-- NodeJSON.ofGreaterThanOrEqual fills the GreaterThanOrEqual field. -/
def NodeJSON.ofGreaterThanOrEqual (l r : NodeJSON) : NodeJSON :=
  .mk none none .none .none .none .none .none .none .none .none .none (.some l r) .none
     .none .none .none .none .none .none .none .none .none .none .none .none .none
     .none .none .nil

/-- NodeJSON.ofIn fills the In field. -/
def NodeJSON.ofIn (l r : NodeJSON) : NodeJSON :=
  .mk none none .none .none .none .none .none .none .none .none .none .none (.some l r)
     .none .none .none .none .none .none .none .none .none .none .none .none .none
     .none .none .nil

/-- NodeJSON.ofLessThan fills the LessThan field. -/
def NodeJSON.ofLessThan (l r : NodeJSON) : NodeJSON :=
  .mk none none .none .none .none .none .none .none .none .none .none .none .none
     (.some l r) .none .none .none .none .none .none .none .none .none .none .none .none
     .none .none .nil

/-- NodeJSON.ofLessThanOrEqual fills the LessThanOrEqual field. -/
def NodeJSON.ofLessThanOrEqual (l r : NodeJSON) : NodeJSON :=
  .mk none none .none .none .none .none .none .none .none .none .none .none .none
     .none (.some l r) .none .none .none .none .none .none .none .none .none .none .none
     .none .none .nil

/-- NodeJSON.ofMultiply fills the Multiply field. -/
def NodeJSON.ofMultiply (l r : NodeJSON) : NodeJSON :=
  .mk none none .none .none .none .none .none .none .none .none .none .none .none
     .none .none (.some l r) .none .none .none .none .none .none .none .none .none .none
     .none .none .nil

/-- NodeJSON.ofNotEquals fills the NotEquals field. -/
def NodeJSON.ofNotEquals (l r : NodeJSON) : NodeJSON :=
  .mk none none .none .none .none .none .none .none .none .none .none .none .none
     .none .none .none (.some l r) .none .none .none .none .none .none .none .none .none
     .none .none .nil

/-- NodeJSON.ofOr fills the Or field. -/
def NodeJSON.ofOr (l r : NodeJSON) : NodeJSON :=
  .mk none none .none .none .none .none .none .none .none .none .none .none .none
     .none .none .none .none (.some l r) .none .none .none .none .none .none .none .none
     .none .none .nil

/-- NodeJSON.ofSubtract fills the Subtract field. -/
def NodeJSON.ofSubtract (l r : NodeJSON) : NodeJSON :=
  .mk none none .none .none .none .none .none .none .none .none .none .none .none
     .none .none .none .none .none (.some l r) .none .none .none .none .none .none .none
     .none .none .nil

/-- NodeJSON.ofGetTag fills the GetTag field. -/
def NodeJSON.ofGetTag (l r : NodeJSON) : NodeJSON :=
  .mk none none .none .none .none .none .none .none .none .none .none .none .none
     .none .none .none .none .none .none (.some l r) .none .none .none .none .none .none
     .none .none .nil

/-- NodeJSON.ofHasTag fills the HasTag field. -/
def NodeJSON.ofHasTag (l r : NodeJSON) : NodeJSON :=
  .mk none none .none .none .none .none .none .none .none .none .none .none .none
     .none .none .none .none .none .none .none (.some l r) .none .none .none .none .none
     .none .none .nil

/-- NodeJSON.ofAccess fills the Access field, as built by strToJSON. -/
def NodeJSON.ofAccess (l : NodeJSON) (attr : String) : NodeJSON :=
  .mk none none .none .none .none .none .none .none .none .none .none .none .none
     .none .none .none .none .none .none .none .none (.some l attr) .none .none .none .none
     .none .none .nil

/-- NodeJSON.ofHas fills the Has field. -/
def NodeJSON.ofHas (l : NodeJSON) (attr : String) : NodeJSON :=
  .mk none none .none .none .none .none .none .none .none .none .none .none .none
     .none .none .none .none .none .none .none .none .none (.some l attr) .none .none .none
     .none .none .nil

/-- NodeJSON.ofIs fills the Is field, as built by isToJSON (In empty) or
isInToJSON (In populated). -/
def NodeJSON.ofIs (l : NodeJSON) (entityType : String) (inNode : OptNode) : NodeJSON :=
  .mk none none .none .none .none .none .none .none .none .none .none .none .none
     .none .none .none .none .none .none .none .none .none .none (.some l entityType inNode)
     .none .none .none .none .nil

/-- NodeJSON.ofLike fills the Like field, as built by likeToJSON. -/
def NodeJSON.ofLike (l : NodeJSON) (pattern : String) : NodeJSON :=
  .mk none none .none .none .none .none .none .none .none .none .none .none .none
     .none .none .none .none .none .none .none .none .none .none .none (.some l pattern)
     .none .none .none .nil

/-- NodeJSON.ofIfThenElse fills the IfThenElse field, as built by ifToJSON. -/
def NodeJSON.ofIfThenElse (a b c : NodeJSON) : NodeJSON :=
  .mk none none .none .none .none .none .none .none .none .none .none .none .none
     .none .none .none .none .none .none .none .none .none .none .none .none
     (.some a b c) .none .none .nil

/-- NodeJSON.ofSet fills the Set field with a populated (possibly empty)
array, as built by arrayToJSON. -/
def NodeJSON.ofSet (l : NodeList) : NodeJSON :=
  .mk none none .none .none .none .none .none .none .none .none .none .none .none
     .none .none .none .none .none .none .none .none .none .none .none .none .none
     (.some l) .none .nil

/-- NodeJSON.ofRecord fills the Record field with a populated record, as
built by recordToJSON. -/
def NodeJSON.ofRecord (l : RecordList) : NodeJSON :=
  .mk none none .none .none .none .none .none .none .none .none .none .none .none
     .none .none .none .none .none .none .none .none .none .none .none .none .none
     .none (.some l) .nil

/-- NodeJSON.ofExt fills the ExtensionCall map. -/
def NodeJSON.ofExt (e : ExtList) : NodeJSON :=
  .mk none none .none .none .none .none .none .none .none .none .none .none .none
     .none .none .none .none .none .none .none .none .none .none .none .none .none
     .none .none e

/-- extToJSON embeds the Go function extToJSON (source lines 290-300): it
builds a one-entry extension map from the function name to a one-element
argument array holding a string node with the printed form of the value. -/
def extToJSON (name : String) (printed : String) : ExtList :=
  .cons name (.cons (NodeJSON.ofValue (.string printed)) .nil) .nil

mutual

/-- NodeJSON.FromNode embeds the Go method NodeJSON.FromNode (source lines
356-498): a switch on the dynamic node type that fills exactly one field of
the result.  Decimal- and IP-typed leaf values serialize as extension calls
(source lines 364-371); the default case panics with the message built from
"unknown node type %T" (source lines 493-496). -/
def NodeJSON.FromNode : IsNode → TransResult NodeJSON
  | .nodeValue v =>
    match v with
    | .decimal d => .ok (NodeJSON.ofExt (extToJSON "decimal" d.strRep))
    | .ipaddr a => .ok (NodeJSON.ofExt (extToJSON "ip" a.strRep))
    | vv => .ok (NodeJSON.ofValue vv)
  | .nodeTypeVariable name => .ok (NodeJSON.ofVar name)
  | .nodeTypeNot a => (NodeJSON.FromNode a).bind fun ja => .ok (NodeJSON.ofNot ja)
  | .nodeTypeNegate a => (NodeJSON.FromNode a).bind fun ja => .ok (NodeJSON.ofNegate ja)
  | .nodeTypeAdd l r => (NodeJSON.FromNode l).bind fun jl => (NodeJSON.FromNode r).bind fun jr => .ok (NodeJSON.ofAdd jl jr)
  | .nodeTypeAnd l r => (NodeJSON.FromNode l).bind fun jl => (NodeJSON.FromNode r).bind fun jr => .ok (NodeJSON.ofAnd jl jr)
  | .nodeTypeContains l r => (NodeJSON.FromNode l).bind fun jl => (NodeJSON.FromNode r).bind fun jr => .ok (NodeJSON.ofContains jl jr)
  | .nodeTypeContainsAll l r => (NodeJSON.FromNode l).bind fun jl => (NodeJSON.FromNode r).bind fun jr => .ok (NodeJSON.ofContainsAll jl jr)
  | .nodeTypeContainsAny l r => (NodeJSON.FromNode l).bind fun jl => (NodeJSON.FromNode r).bind fun jr => .ok (NodeJSON.ofContainsAny jl jr)
  | .nodeTypeEquals l r => (NodeJSON.FromNode l).bind fun jl => (NodeJSON.FromNode r).bind fun jr => .ok (NodeJSON.ofEquals jl jr)
  | .nodeTypeGreaterThan l r => (NodeJSON.FromNode l).bind fun jl => (NodeJSON.FromNode r).bind fun jr => .ok (NodeJSON.ofGreaterThan jl jr)
  | .nodeTypeGreaterThanOrEqual l r => (NodeJSON.FromNode l).bind fun jl => (NodeJSON.FromNode r).bind fun jr => .ok (NodeJSON.ofGreaterThanOrEqual jl jr)
  | .nodeTypeIn l r => (NodeJSON.FromNode l).bind fun jl => (NodeJSON.FromNode r).bind fun jr => .ok (NodeJSON.ofIn jl jr)
  | .nodeTypeLessThan l r => (NodeJSON.FromNode l).bind fun jl => (NodeJSON.FromNode r).bind fun jr => .ok (NodeJSON.ofLessThan jl jr)
  | .nodeTypeLessThanOrEqual l r => (NodeJSON.FromNode l).bind fun jl => (NodeJSON.FromNode r).bind fun jr => .ok (NodeJSON.ofLessThanOrEqual jl jr)
  | .nodeTypeMult l r => (NodeJSON.FromNode l).bind fun jl => (NodeJSON.FromNode r).bind fun jr => .ok (NodeJSON.ofMultiply jl jr)
  | .nodeTypeNotEquals l r => (NodeJSON.FromNode l).bind fun jl => (NodeJSON.FromNode r).bind fun jr => .ok (NodeJSON.ofNotEquals jl jr)
  | .nodeTypeOr l r => (NodeJSON.FromNode l).bind fun jl => (NodeJSON.FromNode r).bind fun jr => .ok (NodeJSON.ofOr jl jr)
  | .nodeTypeSub l r => (NodeJSON.FromNode l).bind fun jl => (NodeJSON.FromNode r).bind fun jr => .ok (NodeJSON.ofSubtract jl jr)
  | .nodeTypeGetTag l r => (NodeJSON.FromNode l).bind fun jl => (NodeJSON.FromNode r).bind fun jr => .ok (NodeJSON.ofGetTag jl jr)
  | .nodeTypeHasTag l r => (NodeJSON.FromNode l).bind fun jl => (NodeJSON.FromNode r).bind fun jr => .ok (NodeJSON.ofHasTag jl jr)
  | .nodeTypeAccess a s => (NodeJSON.FromNode a).bind fun ja => .ok (NodeJSON.ofAccess ja s)
  | .nodeTypeHas a s => (NodeJSON.FromNode a).bind fun ja => .ok (NodeJSON.ofHas ja s)
  | .nodeTypeIs l et => (NodeJSON.FromNode l).bind fun jl => .ok (NodeJSON.ofIs jl et .none)
  | .nodeTypeIsIn l et e => (NodeJSON.FromNode l).bind fun jl => (NodeJSON.FromNode e).bind fun je => .ok (NodeJSON.ofIs jl et (.some je))
  | .nodeTypeLike a p => (NodeJSON.FromNode a).bind fun ja => .ok (NodeJSON.ofLike ja p)
  | .nodeTypeIfThenElse a b c => (NodeJSON.FromNode a).bind fun ja => (NodeJSON.FromNode b).bind fun jb => (NodeJSON.FromNode c).bind fun jc => .ok (NodeJSON.ofIfThenElse ja jb jc)
  | .nodeTypeSet els => (fromNodeList els).bind fun js => .ok (NodeJSON.ofSet js)
  | .nodeTypeRecord els => (fromNodeRecord els).bind fun js => .ok (NodeJSON.ofRecord js)
  | .nodeTypeExtensionCall nm args => (fromNodeList args).bind fun js => .ok (NodeJSON.ofExt (.cons nm js .nil))
  | .unknownNode goType => .panicked ("unknown node type " ++ goType)

/-- fromNodeList embeds arrayToJSON (source lines 280-288): it translates
each element in order, and a panic in any element aborts the whole loop. -/
def fromNodeList : IsNodeList → TransResult NodeList
  | .nil => .ok .nil
  | .cons h t => (NodeJSON.FromNode h).bind fun jh => (fromNodeList t).bind fun jt => .ok (.cons jh jt)

/-- fromNodeRecord embeds recordToJSON (source lines 322-330). -/
def fromNodeRecord : IsNodeRecord → TransResult RecordList
  | .nil => .ok .nil
  | .cons k v t => (NodeJSON.FromNode v).bind fun jv => (fromNodeRecord t).bind fun jt => .ok (.cons k jv jt)

end

/-- MarshalJson is the JSON document produced by one step of Go
serialization.  The `raw` case marks an embedded NodeJSON child value: the
Go encoding/json package serializes such a child by recursively invoking its
MarshalJSON method, and the one-step model keeps the child symbolic. -/
inductive MarshalJson where
  | null
  | boolean (b : Bool)
  | num (i : Int)
  | str (s : String)
  | arr (elems : List MarshalJson)
  | obj (fields : List (String × MarshalJson))
  | raw (child : NodeJSON)

/-- marshalValue models the external cedar-go serialization of a leaf
types.Value (the boundary of the embedded layer). -/
def marshalValue : Value → MarshalJson
  | .boolean b => .boolean b
  | .long i => .num i
  | .string s => .str s
  | .entityUID e => .obj [("__entity", .obj [("type", .str e.entityType), ("id", .str e.id)])]
  | .decimal d => .str d.strRep
  | .ipaddr a => .str a.strRep

/-- rawArr places each node of an argument array as an embedded child. -/
def rawArr : NodeList → List MarshalJson
  | .nil => []
  | .cons h t => .raw h :: rawArr t

/-- marshalExtEntries is the one-step Go serialization of the extension-call
map (the expression json.Marshal of j.ExtensionCall): one key per extension
function name, each holding the argument array of embedded children. -/
def marshalExtEntries : ExtList → List (String × MarshalJson)
  | .nil => []
  | .cons k args t => (k, .arr (rawArr args)) :: marshalExtEntries t

/-- aliasUnary is the one-step serialization of an optional unary operator
field under its JSON key; absent fields are omitted. -/
def aliasUnary (key : String) : OptUnary → List (String × MarshalJson)
  | .none => []
  | .some a => [(key, .obj [("arg", .raw a)])]

/-- aliasBinary is the one-step serialization of an optional binary operator
field under its JSON key. -/
def aliasBinary (key : String) : OptBinary → List (String × MarshalJson)
  | .none => []
  | .some l r => [(key, .obj [("left", .raw l), ("right", .raw r)])]

/-- aliasStrOp is the one-step serialization of an optional string-operator
field under its JSON key. -/
def aliasStrOp (key : String) : OptStrOp → List (String × MarshalJson)
  | .none => []
  | .some l a => [(key, .obj [("left", .raw l), ("attr", .str a)])]

/-- aliasIs is the one-step serialization of the optional is field. -/
def aliasIs : OptIs → List (String × MarshalJson)
  | .none => []
  | .some l et .none => [("is", .obj [("left", .raw l), ("entity_type", .str et)])]
  | .some l et (.some e) => [("is", .obj [("left", .raw l), ("entity_type", .str et), ("in", .raw e)])]

/-- aliasLike is the one-step serialization of the optional like field. -/
def aliasLike : OptLike → List (String × MarshalJson)
  | .none => []
  | .some l p => [("like", .obj [("left", .raw l), ("pattern", .str p)])]

/-- aliasIf is the one-step serialization of the optional if-then-else
field. -/
def aliasIf : OptIf → List (String × MarshalJson)
  | .none => []
  | .some a b c => [("if-then-else", .obj [("if", .raw a), ("then", .raw b), ("else", .raw c)])]

/-- aliasSet is the one-step serialization of the Set field; with the Go
omitempty tag a nil or empty array is omitted. -/
def aliasSet : OptNodeList → List (String × MarshalJson)
  | .none => []
  | .some .nil => []
  | .some l => [("Set", .arr (rawArr l))]

/-- aliasRecordEntries places each record entry as an embedded child. -/
def aliasRecordEntries : RecordList → List (String × MarshalJson)
  | .nil => []
  | .cons k v t => (k, .raw v) :: aliasRecordEntries t

/-- aliasRecord is the one-step serialization of the Record field; with the
Go omitempty tag a nil or empty record is omitted. -/
def aliasRecord : OptRecordList → List (String × MarshalJson)
  | .none => []
  | .some .nil => []
  | .some l => [("Record", .obj (aliasRecordEntries l))]

/-- NodeJSON.aliasFields is the one-step serialization of the nodeJSONAlias
struct (the else branch of NodeJSON.MarshalJSON): every populated field in
struct order under its json key, with the ExtensionCall map excluded because
its Go json tag is "-". -/
def NodeJSON.aliasFields : NodeJSON → List (String × MarshalJson)
  | .mk v vr nt ng ad an co ca cy eq gt ge i lt le mu ne o su g h ac hs is lk ite st rc _ =>
    (match v with | Option.none => [] | Option.some x => [("Value", marshalValue x.V)]) ++
    (match vr with | Option.none => [] | Option.some s => [("Var", MarshalJson.str s)]) ++
    aliasUnary "!" nt ++ aliasUnary "neg" ng ++
    aliasBinary "+" ad ++ aliasBinary "&&" an ++ aliasBinary "contains" co ++
    aliasBinary "containsAll" ca ++ aliasBinary "containsAny" cy ++ aliasBinary "==" eq ++
    aliasBinary ">" gt ++ aliasBinary ">=" ge ++ aliasBinary "in" i ++ aliasBinary "<" lt ++
    aliasBinary "<=" le ++ aliasBinary "*" mu ++ aliasBinary "!=" ne ++ aliasBinary "||" o ++
    aliasBinary "-" su ++ aliasBinary "getTag" g ++ aliasBinary "hasTag" h ++
    aliasStrOp "." ac ++ aliasStrOp "has" hs ++ aliasIs is ++ aliasLike lk ++ aliasIf ite ++
    aliasSet st ++ aliasRecord rc

/-- NodeJSON.MarshalJSON embeds the Go method NodeJSON.MarshalJSON (source
lines 500-507): when the extension-call map has at least one entry the node
serializes as that map alone, otherwise the node serializes through the
nodeJSONAlias struct.  Neither branch reports an error. -/
def NodeJSON.MarshalJSON (j : NodeJSON) : Except String MarshalJson :=
  if j.extensionCallOf.length > 0 then .ok (.obj (marshalExtEntries j.extensionCallOf))
  else .ok (.obj (NodeJSON.aliasFields j))

/-- AnnotationType embeds the external cedar-go ast.AnnotationType pair. -/
structure AnnotationType where
  Key : String
  Value : String
deriving DecidableEq, Repr

/-- ConditionWhen models the external cedar-go constant ast.ConditionWhen;
the ast.ConditionType is a boolean with when represented as true. -/
def ConditionWhen : Bool := true

/-- ConditionUnless models the external cedar-go constant
ast.ConditionUnless. -/
def ConditionUnless : Bool := false

/-- ConditionType embeds the external cedar-go ast.ConditionType: a
when/unless polarity and a condition body node. -/
structure ConditionType where
  Condition : Bool
  Body : IsNode

/-- Policy embeds the parts of the external cedar-go ast.Policy that the
vendored Policy.MarshalJSON method reads: the boolean effect (true is
permit), the ordered annotations, the three scopes and the ordered
conditions. -/
structure Policy where
  Effect : Bool
  Annotations : List AnnotationType
  Principal : IsScopeNode
  Action : IsScopeNode
  Resource : IsScopeNode
  Conditions : List ConditionType

/-- ConditionJSON embeds the Go struct ConditionJSON: a kind tag and a
serialized body. -/
structure ConditionJSON where
  Kind : String
  Body : NodeJSON

/-- PolicyJSON embeds the Go struct PolicyJSON.  The Annotations field is a
Go map that is nil unless the policy carries annotations, modelled as an
optional association list. -/
structure PolicyJSON where
  Effect : String
  Annotations : Option (List (String × String))
  Principal : ScopeJSON
  Action : ScopeJSON
  Resource : ScopeJSON
  Conditions : List ConditionJSON

/-- mapUpsert models one Go map insertion into a string map kept as an
association list: an existing key is overwritten in place, a new key is
appended. -/
def mapUpsert : List (String × String) → String → String → List (String × String)
  | [], k, v => [(k, v)]
  | (k0, v0) :: t, k, v => if k0 = k then (k, v) :: t else (k0, v0) :: mapUpsert t k v

/-- buildAnnotations models the Go loop over p.Annotations that inserts each
key/value pair into the annotations map. -/
def buildAnnotations : List AnnotationType → List (String × String) → List (String × String)
  | [], m => m
  | a :: t, m => buildAnnotations t (mapUpsert m a.Key a.Value)

/-- marshalConditions embeds the Go loop over p.Conditions in
Policy.MarshalJSON (source lines 534-542): each condition is tagged "when"
unless its polarity equals ast.ConditionUnless, and its body is translated
with NodeJSON.FromNode. -/
def marshalConditions : List ConditionType → TransResult (List ConditionJSON)
  | [] => .ok []
  | c :: t =>
    (NodeJSON.FromNode c.Body).bind fun jb =>
    (marshalConditions t).bind fun jt =>
    .ok ({ Kind := if c.Condition = ConditionUnless then "unless" else "when", Body := jb } :: jt)

/-- Policy.MarshalJSON embeds the Go method Policy.MarshalJSON (source lines
519-544): effect is the string "permit" exactly when the boolean effect is
set, the annotations map is only allocated when at least one annotation is
present, the three scopes are translated with ScopeJSON.FromNode and the
conditions in order with their polarity tags. -/
def Policy.MarshalJSON (p : Policy) : TransResult PolicyJSON :=
  (ScopeJSON.FromNode p.Principal).bind fun pr =>
  (ScopeJSON.FromNode p.Action).bind fun ac =>
  (ScopeJSON.FromNode p.Resource).bind fun re =>
  (marshalConditions p.Conditions).bind fun cs =>
  .ok { Effect := if p.Effect then "permit" else "forbid"
      , Annotations := if p.Annotations.length > 0 then some (buildAnnotations p.Annotations []) else none
      , Principal := pr
      , Action := ac
      , Resource := re
      , Conditions := cs }

/-- countOpt is 1 when an optional field is populated. -/
def countOpt {α : Type} : Option α → Nat
  | none => 0
  | some _ => 1

/-- countUnary is 1 when an optional unary field is populated. -/
def countUnary : OptUnary → Nat
  | .none => 0
  | .some _ => 1

/-- countBinary is 1 when an optional binary field is populated. -/
def countBinary : OptBinary → Nat
  | .none => 0
  | .some _ _ => 1

/-- countStrOp is 1 when an optional string-operator field is populated. -/
def countStrOp : OptStrOp → Nat
  | .none => 0
  | .some _ _ => 1

/-- countIs is 1 when the optional is field is populated. -/
def countIs : OptIs → Nat
  | .none => 0
  | .some _ _ _ => 1

/-- countLike is 1 when the optional like field is populated. -/
def countLike : OptLike → Nat
  | .none => 0
  | .some _ _ => 1

/-- countIf is 1 when the optional if-then-else field is populated. -/
def countIf : OptIf → Nat
  | .none => 0
  | .some _ _ _ => 1

/-- countNodeList is 1 when the Set field is populated (present in the
JSON text, possibly empty). -/
def countNodeList : OptNodeList → Nat
  | .none => 0
  | .some _ => 1

/-- countRecordList is 1 when the Record field is populated. -/
def countRecordList : OptRecordList → Nat
  | .none => 0
  | .some _ => 1

/-- NodeJSON.populatedKeyCount is the number of recognized operator keys
populated in a tree node: one per populated struct field plus one per entry
of the extension-call map (each extension function name is its own key in
the JSON text). -/
def NodeJSON.populatedKeyCount : NodeJSON → Nat
  | .mk v vr nt ng ad an co ca cy eq gt ge i lt le mu ne o su g h ac hs is lk ite st rc ex =>
    countOpt v + countOpt vr + countUnary nt + countUnary ng +
    countBinary ad + countBinary an + countBinary co + countBinary ca +
    countBinary cy + countBinary eq + countBinary gt + countBinary ge +
    countBinary i + countBinary lt + countBinary le + countBinary mu +
    countBinary ne + countBinary o + countBinary su + countBinary g +
    countBinary h + countStrOp ac + countStrOp hs + countIs is +
    countLike lk + countIf ite + countNodeList st + countRecordList rc +
    ex.length

/-- ReadNode is one level of the canonical node recovered by the
tree-to-canonical reader: the operator of the single populated key together
with its still-untranslated child tree nodes (the reader translates the
children by applying itself to each of them). -/
inductive ReadNode where
  | value (v : ValueJSON)
  | varNode (s : String)
  | notNode (arg : NodeJSON)
  | negateNode (arg : NodeJSON)
  | addNode (l r : NodeJSON)
  | andNode (l r : NodeJSON)
  | containsNode (l r : NodeJSON)
  | containsAllNode (l r : NodeJSON)
  | containsAnyNode (l r : NodeJSON)
  | equalsNode (l r : NodeJSON)
  | greaterThanNode (l r : NodeJSON)
  | greaterThanOrEqualNode (l r : NodeJSON)
  | inNode (l r : NodeJSON)
  | lessThanNode (l r : NodeJSON)
  | lessThanOrEqualNode (l r : NodeJSON)
  | multiplyNode (l r : NodeJSON)
  | notEqualsNode (l r : NodeJSON)
  | orNode (l r : NodeJSON)
  | subtractNode (l r : NodeJSON)
  | getTagNode (l r : NodeJSON)
  | hasTagNode (l r : NodeJSON)
  | accessNode (l : NodeJSON) (attr : String)
  | hasNode (l : NodeJSON) (attr : String)
  | isNode (l : NodeJSON) (entityType : String) (inPart : OptNode)
  | likeNode (l : NodeJSON) (pattern : String)
  | ifNode (a b c : NodeJSON)
  | setNode (l : NodeList)
  | recordNode (l : RecordList)
  | extNode (name : String) (args : NodeList)

/-- UnsupportedNodeTypeError carries the offending tree node, following the
failure policy of the specification. -/
structure UnsupportedNodeTypeError where
  shape : NodeJSON

/-- Modelled from the spec: the tree-to-canonical reader (the ToNode
direction of the JSON layer) is exercised by this repository but its source
is not part of this tree.  Per the specification, the reader dispatches on
the single populated operator key of a tree node; when more than one
recognized key is populated, or none, it reports UnsupportedNodeTypeError
carrying the offending shape and never silently picks the first populated
key.  The function reads one node; children are read by applying the reader
again to each child it returns. -/
def NodeJSON.ToNode : NodeJSON → Except UnsupportedNodeTypeError ReadNode
  | n@(.mk v vr nt ng ad an co ca cy eq gt ge i lt le mu ne o su g h ac hs is lk ite st rc ex) =>
    if NodeJSON.populatedKeyCount n = 1 then
      match v with
      | .some x => .ok (.value x)
      | .none =>
      match vr with
      | .some s => .ok (.varNode s)
      | .none =>
      match nt with
      | .some a => .ok (.notNode a)
      | .none =>
      match ng with
      | .some a => .ok (.negateNode a)
      | .none =>
      match ad with
      | .some l r => .ok (.addNode l r)
      | .none =>
      match an with
      | .some l r => .ok (.andNode l r)
      | .none =>
      match co with
      | .some l r => .ok (.containsNode l r)
      | .none =>
      match ca with
      | .some l r => .ok (.containsAllNode l r)
      | .none =>
      match cy with
      | .some l r => .ok (.containsAnyNode l r)
      | .none =>
      match eq with
      | .some l r => .ok (.equalsNode l r)
      | .none =>
      match gt with
      | .some l r => .ok (.greaterThanNode l r)
      | .none =>
      match ge with
      | .some l r => .ok (.greaterThanOrEqualNode l r)
      | .none =>
      match i with
      | .some l r => .ok (.inNode l r)
      | .none =>
      match lt with
      | .some l r => .ok (.lessThanNode l r)
      | .none =>
      match le with
      | .some l r => .ok (.lessThanOrEqualNode l r)
      | .none =>
      match mu with
      | .some l r => .ok (.multiplyNode l r)
      | .none =>
      match ne with
      | .some l r => .ok (.notEqualsNode l r)
      | .none =>
      match o with
      | .some l r => .ok (.orNode l r)
      | .none =>
      match su with
      | .some l r => .ok (.subtractNode l r)
      | .none =>
      match g with
      | .some l r => .ok (.getTagNode l r)
      | .none =>
      match h with
      | .some l r => .ok (.hasTagNode l r)
      | .none =>
      match ac with
      | .some l a => .ok (.accessNode l a)
      | .none =>
      match hs with
      | .some l a => .ok (.hasNode l a)
      | .none =>
      match is with
      | .some l et inn => .ok (.isNode l et inn)
      | .none =>
      match lk with
      | .some l p => .ok (.likeNode l p)
      | .none =>
      match ite with
      | .some a b c => .ok (.ifNode a b c)
      | .none =>
      match st with
      | .some l => .ok (.setNode l)
      | .none =>
      match rc with
      | .some l => .ok (.recordNode l)
      | .none =>
      match ex with
      | .cons nm args _ => .ok (.extNode nm args)
      | .nil => .error ⟨n⟩
    else .error ⟨n⟩

/-! ## Section 2: the gcpBind role-binding mapper, modelled from the spec -/

/-- MetaInfo is the canonical policy metadata; only the optional policy id
participates in the modelled algorithms. -/
structure MetaInfo where
  policyId : Option String
deriving DecidableEq, Repr

/-- ActionInfo is one canonical action: a name, an action URI and the
exclude flag that negates membership of the action. -/
structure ActionInfo where
  name : String
  actionUri : String
  exclude : Bool
deriving DecidableEq, Repr

/-- SubjectInfo is the canonical principal descriptor; the modelled
algorithms use its member identifiers. -/
structure SubjectInfo where
  members : List String
deriving DecidableEq, Repr

/-- ObjectInfo is the canonical protected-resource descriptor. -/
structure ObjectInfo where
  assetId : String
deriving DecidableEq, Repr

/-- ConditionInfo is the optional canonical condition. -/
structure ConditionInfo where
  rule : String
  action : String
deriving DecidableEq, Repr

/-- PolicyInfo is the canonical policy unit of the specification data
model. -/
structure PolicyInfo where
  meta : MetaInfo
  subject : SubjectInfo
  actions : List ActionInfo
  object : ObjectInfo
  condition : Option ConditionInfo
deriving DecidableEq, Repr

/-- GcpBinding models the binding entity: a role with its member
principals. -/
structure GcpBinding where
  role : String
  members : List String
deriving DecidableEq, Repr

/-- GcpBindAssignment models the per-resource binding group. -/
structure GcpBindAssignment where
  resourceId : String
  bindings : List GcpBinding
deriving DecidableEq, Repr

/-- dedupInto accumulates strings in first-encounter order, dropping
duplicates. -/
def dedupInto (acc : List String) : List String → List String
  | [] => acc
  | s :: t => if s ∈ acc then dedupInto acc t else dedupInto (acc ++ [s]) t

/-- dedupStrings keeps the first occurrence of every string. -/
def dedupStrings (l : List String) : List String := dedupInto [] l

/-- addMember adds one principal to the binding of a role, creating the
binding at the end (first-encounter order) when the role is new and
deduplicating members. -/
def addMember : List GcpBinding → String → String → List GcpBinding
  | [], role, m => [⟨role, [m]⟩]
  | b :: t, role, m =>
    if b.role = role then
      (if m ∈ b.members then b else ⟨b.role, b.members ++ [m]⟩) :: t
    else b :: addMember t role m

/-- ensureRole makes sure a role has a binding, creating an empty one at
the end when it is new: an empty member set is an explicit empty grant and
is still emitted. -/
def ensureRole : List GcpBinding → String → List GcpBinding
  | [], role => [⟨role, []⟩]
  | b :: t, role => if b.role = role then b :: t else b :: ensureRole t role

/-- addMembers accumulates the member identifiers of one policy subject
into the binding of one role. -/
def addMembers (bs : List GcpBinding) (role : String) (ms : List String) : List GcpBinding :=
  ms.foldl (fun acc m => addMember acc role m) (ensureRole bs role)

/-- policyContribute folds one policy into the binding list of its resource
group: every non-excluded action resolves to a role through the static
action-to-role table and contributes the subject members to that role. -/
def policyContribute (actionRole : String → String) (bs : List GcpBinding) (p : PolicyInfo) : List GcpBinding :=
  p.actions.foldl
    (fun acc a => if a.exclude then acc else addMembers acc (actionRole a.actionUri) p.subject.members)
    bs

/-- Modelled from the spec: gcpBind MapPoliciesToBindings is exercised by the
repository tests but its source is not part of this tree.  Per the
specification, policies are grouped by resource (object identity) in
first-encounter order; within a group every non-excluded action resolves its
role via the static action-to-role lookup and accumulates the subject
members into that role, deduplicated, roles in first-encounter order; one
BindAssignment is produced per resource, and a resource whose group yields
zero bindings produces no entry at all. -/
def MapPoliciesToBindings (actionRole : String → String) (policies : List PolicyInfo) : List GcpBindAssignment :=
  (dedupStrings (policies.map fun p => p.object.assetId)).filterMap fun rid =>
    let grp := policies.filter fun p => p.object.assetId = rid
    let bs := grp.foldl (policyContribute actionRole) []
    if bs.isEmpty then none else some ⟨rid, bs⟩

/-- MapperError is the error taxonomy of the reverse mapper: a role with no
inverse mapping is UnknownRoleError. -/
inductive MapperError where
  | unknownRole (role : String)
deriving DecidableEq, Repr

/-- synthPolicy builds the canonical policy of one (role, member) pair of
one resource: the subject is the member, the actions are the actions the
role maps back to, the object is derived from the resource id. -/
def synthPolicy (rid : String) (acts : List String) (m : String) : PolicyInfo :=
  { meta := ⟨none⟩
  , subject := ⟨[m]⟩
  , actions := acts.map fun uri => { name := uri, actionUri := uri, exclude := false }
  , object := ⟨rid⟩
  , condition := none }

/-- bindingsToPolicies expands every binding of one assignment into one
policy per member, failing with UnknownRoleError when the role has no
inverse mapping. -/
def bindingsToPolicies (roleActions : String → Option (List String)) (rid : String) :
    List GcpBinding → Except MapperError (List PolicyInfo)
  | [] => .ok []
  | b :: t =>
    match roleActions b.role with
    | none => .error (.unknownRole b.role)
    | some acts =>
      match bindingsToPolicies roleActions rid t with
      | .error e => .error e
      | .ok rest => .ok (b.members.map (synthPolicy rid acts) ++ rest)

/-- Modelled from the spec: gcpBind MapBindingAssignmentsToPolicy is
exercised by the repository tests but its source is not part of this tree.
Per the specification, for each assignment and each binding the role
resolves to its actions through the inverse of the static table (failing
with UnknownRoleError when there is none) and one PolicyInfo is synthesized
per (role, member) pair, with the object derived from the resource id. -/
def MapBindingAssignmentsToPolicy (roleActions : String → Option (List String)) :
    List GcpBindAssignment → Except MapperError (List PolicyInfo)
  | [] => .ok []
  | a :: t =>
    match bindingsToPolicies roleActions a.resourceId a.bindings with
    | .error e => .error e
    | .ok ps =>
      match MapBindingAssignmentsToPolicy roleActions t with
      | .error e => .error e
      | .ok rest => .ok (ps ++ rest)

/-- Json is a parsed JSON document, the input shape of the modelled
ParseFile (the file bytes after ordinary JSON parsing). -/
inductive Json where
  | null
  | boolean (b : Bool)
  | num (i : Int)
  | str (s : String)
  | arr (elems : List Json)
  | obj (fields : List (String × Json))

/-- jsonLookup finds the value of a key in a JSON object. -/
def jsonLookup : List (String × Json) → String → Option Json
  | [], _ => none
  | (k, v) :: t, key => if k = key then some v else jsonLookup t key

/-- decodeStringList decodes a JSON array of strings. -/
def decodeStringList : List Json → Option (List String)
  | [] => some []
  | .str s :: t => (decodeStringList t).map fun r => s :: r
  | _ => none

/-- decodeBinding decodes a bare binding object: a role string and a members
string array. -/
def decodeBinding : Json → Option GcpBinding
  | .obj fields =>
    match jsonLookup fields "role", jsonLookup fields "members" with
    | some (.str role), some (.arr ms) => (decodeStringList ms).map fun mm => ⟨role, mm⟩
    | _, _ => none
  | _ => none

/-- decodeBindingList decodes a JSON array of binding objects. -/
def decodeBindingList : List Json → Option (List GcpBinding)
  | [] => some []
  | j :: t =>
    match decodeBinding j with
    | none => none
    | some b => (decodeBindingList t).map fun r => b :: r

/-- decodeAssignment decodes a bind-assignment object: a resourceId string
and a bindings array. -/
def decodeAssignment : Json → Option GcpBindAssignment
  | .obj fields =>
    match jsonLookup fields "resourceId", jsonLookup fields "bindings" with
    | some (.str rid), some (.arr bs) => (decodeBindingList bs).map fun bb => ⟨rid, bb⟩
    | _, _ => none
  | _ => none

/-- decodeAssignmentList decodes a JSON array of bind-assignment objects. -/
def decodeAssignmentList : List Json → Option (List GcpBindAssignment)
  | [] => some []
  | j :: t =>
    match decodeAssignment j with
    | none => none
    | some a => (decodeAssignmentList t).map fun r => a :: r

/-- GcpParseError is the clear parse failure of the sniffing parser. -/
inductive GcpParseError where
  | parseError (msg : String)
deriving DecidableEq, Repr

/-- Modelled from the spec: gcpBind.ParseFile is exercised by the repository
tests but its source is not part of this tree.  Per the specification, the
parser sniffs the top-level structure: a JSON array parses as an array of
BindAssignment objects returned as-is; an object holding a resourceId key
parses as a single BindAssignment returned as a one-element sequence; any
other object parses as a bare Binding wrapped into one BindAssignment with
empty ResourceId; every other shape is a ParseError. -/
def ParseFile : Json → Except GcpParseError (List GcpBindAssignment)
  | .arr elems =>
    match decodeAssignmentList elems with
    | some l => .ok l
    | none => .error (.parseError "malformed bind assignment array")
  | .obj fields =>
    if (jsonLookup fields "resourceId").isSome then
      match decodeAssignment (.obj fields) with
      | some a => .ok [a]
      | none => .error (.parseError "malformed bind assignment")
    else
      match decodeBinding (.obj fields) with
      | some b => .ok [⟨"", [b]⟩]
      | none => .error (.parseError "unrecognized binding shape")
  | _ => .error (.parseError "unrecognized input shape")

/-- bindingToJson models the Go JSON serialization of one binding, as the
test WriteObj produces it. -/
def bindingToJson (b : GcpBinding) : Json :=
  .obj [("role", .str b.role), ("members", .arr (b.members.map .str))]

/-- assignmentToJson models the Go JSON serialization of one
bind-assignment. -/
def assignmentToJson (a : GcpBindAssignment) : Json :=
  .obj [("resourceId", .str a.resourceId), ("bindings", .arr (a.bindings.map bindingToJson))]

/-! ## Section 3: policy-set reconciliation, modelled from the spec -/

/-- DifKind is the classification of one reconciliation entry. -/
inductive DifKind where
  | equal
  | added
  | removed
  | changed
deriving DecidableEq, Repr

/-- PolicyDif is one reconciliation output entry: a kind and the policy it
classifies. -/
structure PolicyDif where
  kind : DifKind
  policy : PolicyInfo
deriving DecidableEq, Repr

/-- structKey is the structural identity key of a policy: subject, actions
and object. -/
def structKey (p : PolicyInfo) : SubjectInfo × List ActionInfo × ObjectInfo :=
  (p.subject, p.actions, p.object)

/-- policiesMatch decides whether two policies are the same logical policy:
by policy id when both sides set one, otherwise by structural key. -/
def policiesMatch (s c : PolicyInfo) : Bool :=
  match s.meta.policyId, c.meta.policyId with
  | some i, some j => decide (i = j)
  | _, _ => decide (structKey s = structKey c)

/-- classifySource classifies one source policy against the compare set:
equal when a matching policy is deep-equal, changed when a match exists but
none is deep-equal, removed when no policy matches. -/
def classifySource (compare : List PolicyInfo) (s : PolicyInfo) : PolicyDif :=
  if compare.any (fun c => policiesMatch s c && decide (s = c)) then ⟨.equal, s⟩
  else if compare.any (fun c => policiesMatch s c) then ⟨.changed, s⟩
  else ⟨.removed, s⟩

/-- Modelled from the spec: hexapolicy ReconcilePolicies is invoked by
src/cmd/hexa/commands.go (ReconcileCmd.Run) but its source is not part of
this tree.  Per the specification, every source policy yields one entry
(equal, changed or removed) in source order, followed by one added entry per
compare policy whose key matches nothing in the source, in compare order;
when diffOnly is set the equal entries are suppressed from the returned
sequence. -/
def ReconcilePolicies (source compare : List PolicyInfo) (diffOnly : Bool) : List PolicyDif :=
  let sourceDifs := source.map (classifySource compare)
  let addedDifs := (compare.filter fun c => !(source.any fun s => policiesMatch s c)).map
    fun c => PolicyDif.mk .added c
  let all := sourceDifs ++ addedDifs
  if diffOnly then all.filter fun d => !(decide (d.kind = .equal)) else all

/-! ## Section 4: the Google client application discovery -/

/-- ApplicationInfo embeds the policyprovider.ApplicationInfo fields the
client fills. -/
structure ApplicationInfo where
  ObjectID : String
  Name : String
  Description : String
  Service : String
deriving DecidableEq, Repr

/-- GoogleApplication models the fields of the external App Engine
Application value the client reads after decoding the response body. -/
structure GoogleApplication where
  Id : String
  Name : String
  DefaultHostname : String
deriving DecidableEq, Repr

/-- DecodeResult is the outcome of decoding the response body into an
Application value. -/
inductive DecodeResult where
  | ok (app : GoogleApplication)
  | fail (err : String)
deriving DecidableEq, Repr

/-- HttpGetResult is the outcome of the HTTP GET the client performs: either
the request itself fails, or a response arrives with a status code and a
body whose decoding outcome is given. -/
inductive HttpGetResult where
  | failure (err : String)
  | response (statusCode : Nat) (body : DecodeResult)
deriving DecidableEq, Repr

/-- GetAppEngineApplications embeds the Go method
GoogleClient.GetAppEngineApplications of
src/providers/googlecloud/iapProvider/google_client.go (lines 38-66): a
failed GET returns an empty list with that error; a 404 response returns an
empty list with no error before any decoding; a body that fails to decode
returns an empty list with that error; otherwise exactly one ApplicationInfo
is built from the decoded application.  The Option String is the Go error
result, none for nil. -/
def GetAppEngineApplications : HttpGetResult → List ApplicationInfo × Option String
  | .failure e => ([], some e)
  | .response sc body =>
    if sc = 404 then ([], none)
    else
      match body with
      | .fail e => ([], some e)
      | .ok app => ([⟨app.Id, app.Name, app.DefaultHostname, "AppEngine"⟩], none)

/-! ## Concrete sample values used by the closed instances below -/

/-- c1ActionRole is a concrete static action-to-role table for the corpus
scenario: action a1 resolves to role r1, every other action to role r2. -/
def c1ActionRole : String → String := fun uri => if uri = "a1" then "r1" else "r2"

/-- c1RoleActions is the inverse table of c1ActionRole restricted to the
roles it produces. -/
def c1RoleActions : String → Option (List String) := fun role =>
  if role = "r1" then some ["a1"] else if role = "r2" then some ["a2"] else none

/-- c1Policy is one canonical policy of the corpus scenario: one member,
one action, the shared resource res1. -/
def c1Policy (m uri : String) : PolicyInfo :=
  { meta := ⟨none⟩
  , subject := ⟨[m]⟩
  , actions := [⟨uri, uri, false⟩]
  , object := ⟨"res1"⟩
  , condition := none }

/-- c1Policies is the corpus scenario: four canonical policies over the one
resource res1, inducing the four distinct (role, member) pairs
(r1, m1), (r1, m2), (r2, m1) and (r2, m2). -/
def c1Policies : List PolicyInfo :=
  [c1Policy "m1" "a1", c1Policy "m2" "a1", c1Policy "m1" "a2", c1Policy "m2" "a2"]

/-- c1Assignment is the single binding assignment the scenario groups to:
resource res1 with one binding per role in first-encounter order. -/
def c1Assignment : GcpBindAssignment :=
  ⟨"res1", [⟨"r1", ["m1", "m2"]⟩, ⟨"r2", ["m1", "m2"]⟩]⟩

/-- c1RoundTrip is the policy set regenerated from c1Assignment: one policy
per distinct (role, member) pair. -/
def c1RoundTrip : List PolicyInfo :=
  [ synthPolicy "res1" ["a1"] "m1", synthPolicy "res1" ["a1"] "m2"
  , synthPolicy "res1" ["a2"] "m1", synthPolicy "res1" ["a2"] "m2" ]

/-- sampleBinding is a concrete lone binding. -/
def sampleBinding : GcpBinding := ⟨"roles/viewer", ["user:alice", "user:bob"]⟩

/-- sampleAssignment is a concrete bind assignment with a non-empty
resource id. -/
def sampleAssignment : GcpBindAssignment := ⟨"projects/p1", [sampleBinding]⟩

/-- sampleAssignment2 is a second assignment with a different resource
id. -/
def sampleAssignment2 : GcpBindAssignment := ⟨"projects/p2", []⟩

/-- samplePolicy is a concrete expression-language policy: permit, one
annotation, all-scopes, one when condition over a boolean literal. -/
def samplePolicy : Policy :=
  { Effect := true
  , Annotations := [⟨"key1", "val1"⟩]
  , Principal := .scopeTypeAll
  , Action := .scopeTypeAll
  , Resource := .scopeTypeAll
  , Conditions := [⟨ConditionWhen, .nodeValue (.boolean true)⟩] }

/-- samplePolicyJSON is the serialized form of samplePolicy. -/
def samplePolicyJSON : PolicyJSON :=
  { Effect := "permit"
  , Annotations := some [("key1", "val1")]
  , Principal := { Op := "All" }
  , Action := { Op := "All" }
  , Resource := { Op := "All" }
  , Conditions := [⟨"when", NodeJSON.ofValue (.boolean true)⟩] }

/-- sampleMultiNode is a tree node with two populated variant fields: a
Value literal and a one-entry extension-call map. -/
def sampleMultiNode : NodeJSON :=
  .mk (some ⟨.boolean true⟩) none .none .none .none .none .none .none .none .none .none
     .none .none .none .none .none .none .none .none .none .none .none .none .none .none
     .none .none .none (.cons "ip" (.cons (NodeJSON.ofValue (.string "127.0.0.1")) .nil) .nil)

/-- sampleTwoKeyNode is a tree node with the Value and Var keys both
populated. -/
def sampleTwoKeyNode : NodeJSON :=
  .mk (some ⟨.boolean true⟩) (some "principal") .none .none .none .none .none .none .none
     .none .none .none .none .none .none .none .none .none .none .none .none .none .none
     .none .none .none .none .none .nil

/-! ## Helper lemmas -/

/-- Decoding the serialized form of a string list recovers the list. -/
theorem decodeStringList_map (ms : List String) : decodeStringList (ms.map .str) = some ms := by
  induction ms with
  | nil => rfl
  | cons h t ih => simp [decodeStringList, ih]

/-- Decoding the serialized form of a binding recovers the binding. -/
theorem decodeBinding_roundtrip (b : GcpBinding) : decodeBinding (bindingToJson b) = some b := by
  simp [decodeBinding, bindingToJson, jsonLookup, decodeStringList_map]

/-- Decoding the serialized form of a binding list recovers the list. -/
theorem decodeBindingList_map (bs : List GcpBinding) :
    decodeBindingList (bs.map bindingToJson) = some bs := by
  induction bs with
  | nil => rfl
  | cons h t ih => simp [decodeBindingList, decodeBinding_roundtrip, ih]

/-- Decoding the serialized form of an assignment recovers the
assignment. -/
theorem decodeAssignment_roundtrip (a : GcpBindAssignment) :
    decodeAssignment (assignmentToJson a) = some a := by
  simp [decodeAssignment, assignmentToJson, jsonLookup, decodeBindingList_map]

/-- Decoding the serialized form of an assignment list recovers the
list. -/
theorem decodeAssignmentList_map (l : List GcpBindAssignment) :
    decodeAssignmentList (l.map assignmentToJson) = some l := by
  induction l with
  | nil => rfl
  | cons h t ih => simp [decodeAssignmentList, decodeAssignment_roundtrip, ih]

/-- Matching is reflexive: every policy is the same logical policy as
itself, whichever identity key applies. -/
theorem policiesMatch_refl (p : PolicyInfo) : policiesMatch p p = true := by
  unfold policiesMatch
  cases hp : p.meta.policyId with
  | none => simp
  | some i => simp

/-- A source policy that occurs in the compare set classifies as equal. -/
theorem classifySource_self {A : List PolicyInfo} {p : PolicyInfo} (hp : p ∈ A) :
    classifySource A p = ⟨.equal, p⟩ := by
  unfold classifySource
  rw [if_pos]
  exact List.any_eq_true.mpr ⟨p, hp, by simp [policiesMatch_refl]⟩

/-- A successful marshalConditions run yields one output entry per input
condition, in order, each tagged when or unless by its polarity. -/
theorem marshalConditions_spec : ∀ (cs : List ConditionType) (js : List ConditionJSON),
    marshalConditions cs = .ok js →
    js.length = cs.length ∧
    ∀ (i : Nat) (c : ConditionType), cs[i]? = some c →
      ∃ jc : ConditionJSON, js[i]? = some jc ∧
        jc.Kind = (if c.Condition = ConditionUnless then "unless" else "when") := by
  intro cs
  induction cs with
  | nil =>
    intro js h
    simp only [marshalConditions] at h
    cases h
    exact ⟨rfl, by intro i c hc; simp at hc⟩
  | cons c t ih =>
    intro js h
    simp only [marshalConditions] at h
    cases hb : NodeJSON.FromNode c.Body with
    | panicked m => rw [hb] at h; simp [TransResult.bind] at h
    | ok jb =>
      rw [hb] at h
      simp only [TransResult.bind] at h
      cases ht : marshalConditions t with
      | panicked m => rw [ht] at h; simp [TransResult.bind] at h
      | ok jt =>
        rw [ht] at h
        simp only [TransResult.bind] at h
        cases h
        rcases ih jt ht with ⟨hlen, hidx⟩
        refine ⟨by simp [hlen], ?_⟩
        intro i cc hc
        cases i with
        | zero =>
          simp only [List.getElem?_cons_zero, Option.some.injEq] at hc
          subst hc
          exact ⟨⟨if c.Condition = ConditionUnless then "unless" else "when", jb⟩, by simp, rfl⟩
        | succ i2 =>
          simp only [List.getElem?_cons_succ] at hc
          rcases hidx i2 cc hc with ⟨jc, hjc, hk⟩
          exact ⟨jc, by simpa using hjc, hk⟩

/-! ## Claim theorems -/

/-- C1: the corpus round-trip grouping scenario.  Four canonical policies
that all target the one resource res1 map to exactly one BindAssignment
(c1Assignment, grouping roles r1 and r2 with members m1 and m2 each), and
mapping that assignment back yields exactly four PolicyInfo entries, one per
distinct (role, member) pair induced by the original set. -/
theorem c1_roundtrip_counts :
    MapPoliciesToBindings c1ActionRole c1Policies = [c1Assignment] ∧
    MapBindingAssignmentsToPolicy c1RoleActions [c1Assignment] = .ok c1RoundTrip ∧
    c1Policies.length = 4 ∧ c1RoundTrip.length = 4 :=
  ⟨by decide, rfl, rfl, rfl⟩

/-- C2: ParseFile shape sniffing.  Parsing the serialized form of a lone
Binding yields one BindAssignment with empty ResourceId; parsing a lone
BindAssignment with non-empty ResourceId yields exactly that one-element
sequence; parsing a serialized array of N BindAssignments yields those N
assignments as-is, and for an array of two assignments with distinct
ResourceId values the two parsed assignments have distinct ResourceId
values. -/
theorem parseFile_sniffing (b : GcpBinding) (a : GcpBindAssignment) (ha : a.resourceId ≠ "")
    (l : List GcpBindAssignment) (a1 a2 : GcpBindAssignment)
    (h12 : a1.resourceId ≠ a2.resourceId) :
    (ParseFile (bindingToJson b) = .ok [⟨"", [b]⟩]) ∧
    (ParseFile (assignmentToJson a) = .ok [a] ∧ a.resourceId ≠ "") ∧
    (ParseFile (.arr (l.map assignmentToJson)) = .ok l) ∧
    (ParseFile (.arr [assignmentToJson a1, assignmentToJson a2]) = .ok [a1, a2] ∧
      a1.resourceId ≠ a2.resourceId) := by
  refine ⟨?_, ⟨?_, ha⟩, ?_, ⟨?_, h12⟩⟩
  · simp [ParseFile, bindingToJson, jsonLookup, decodeBinding, decodeStringList_map]
  · simp [ParseFile, assignmentToJson, jsonLookup, decodeAssignment, decodeBindingList_map]
  · simp [ParseFile, decodeAssignmentList_map]
  · simp [ParseFile, decodeAssignmentList, decodeAssignment_roundtrip]

/-- Witness for C2 at concrete inputs. -/
theorem parseFile_sniffing_witness :
    (ParseFile (bindingToJson sampleBinding) = .ok [⟨"", [sampleBinding]⟩]) ∧
    (ParseFile (assignmentToJson sampleAssignment) = .ok [sampleAssignment] ∧
      sampleAssignment.resourceId ≠ "") ∧
    (ParseFile (.arr ([sampleAssignment, sampleAssignment2].map assignmentToJson)) =
      .ok [sampleAssignment, sampleAssignment2]) ∧
    (ParseFile (.arr [assignmentToJson sampleAssignment, assignmentToJson sampleAssignment2]) =
      .ok [sampleAssignment, sampleAssignment2] ∧
      sampleAssignment.resourceId ≠ sampleAssignment2.resourceId) :=
  parseFile_sniffing sampleBinding sampleAssignment (by decide)
    [sampleAssignment, sampleAssignment2] sampleAssignment sampleAssignment2 (by decide)

/-- C3 counterexample: at the concrete out-of-union inputs, both
translators terminate by a Go panic carrying the offending dynamic type;
neither returns a value (and neither returns UnsupportedNodeTypeError as an
error value, which their Go signatures cannot even express). -/
theorem fromNode_unknown_counterexample :
    NodeJSON.FromNode (.unknownNode "ast.FakeNode") =
      .panicked "unknown node type ast.FakeNode" ∧
    ScopeJSON.FromNode (.unknownScope "ast.FakeScope") =
      .panicked "unknown scope type ast.FakeScope" :=
  ⟨rfl, rfl⟩

/-- C3 (amended): for every expression or scope node whose kind lies outside
the closed union, NodeJSON.FromNode and ScopeJSON.FromNode fail that
translation by panicking with a message carrying the offending dynamic type;
they never produce a default or best-guess node, and the failure is a panic
(abnormal termination), not an explicit error value returned to the
caller. -/
theorem fromNode_unknown_panics (goType : String) :
    NodeJSON.FromNode (.unknownNode goType) = .panicked ("unknown node type " ++ goType) ∧
    ScopeJSON.FromNode (.unknownScope goType) = .panicked ("unknown scope type " ++ goType) :=
  ⟨rfl, rfl⟩

/-- C4: Policy.MarshalJSON emits effect "permit" exactly when the policy
effect is the permit flag and "forbid" otherwise, emits the annotations map
exactly when at least one annotation is present, and emits the conditions
list in order with each condition tagged "when" or "unless" by its boolean
polarity. -/
theorem policy_marshalJSON_fields (p : Policy) (jp : PolicyJSON)
    (h : Policy.MarshalJSON p = .ok jp) :
    (jp.Effect = if p.Effect then "permit" else "forbid") ∧
    (jp.Annotations.isSome ↔ p.Annotations ≠ []) ∧
    jp.Conditions.length = p.Conditions.length ∧
    (∀ (i : Nat) (c : ConditionType), p.Conditions[i]? = some c →
      ∃ jc : ConditionJSON, jp.Conditions[i]? = some jc ∧
        jc.Kind = (if c.Condition = ConditionUnless then "unless" else "when")) := by
  unfold Policy.MarshalJSON at h
  cases h1 : ScopeJSON.FromNode p.Principal with
  | panicked m => rw [h1] at h; simp [TransResult.bind] at h
  | ok pr =>
  rw [h1] at h
  simp only [TransResult.bind] at h
  cases h2 : ScopeJSON.FromNode p.Action with
  | panicked m => rw [h2] at h; simp [TransResult.bind] at h
  | ok ac =>
  rw [h2] at h
  simp only [TransResult.bind] at h
  cases h3 : ScopeJSON.FromNode p.Resource with
  | panicked m => rw [h3] at h; simp [TransResult.bind] at h
  | ok re =>
  rw [h3] at h
  simp only [TransResult.bind] at h
  cases h4 : marshalConditions p.Conditions with
  | panicked m => rw [h4] at h; simp [TransResult.bind] at h
  | ok cs =>
  rw [h4] at h
  simp only [TransResult.bind] at h
  cases h
  rcases marshalConditions_spec p.Conditions cs h4 with ⟨hlen, hidx⟩
  refine ⟨rfl, ?_, hlen, hidx⟩
  cases hA : p.Annotations with
  | nil => simp
  | cons a t => simp

/-- Witness for C4 at the concrete samplePolicy. -/
theorem policy_marshalJSON_fields_witness :
    (samplePolicyJSON.Effect = if samplePolicy.Effect then "permit" else "forbid") ∧
    (samplePolicyJSON.Annotations.isSome ↔ samplePolicy.Annotations ≠ []) ∧
    samplePolicyJSON.Conditions.length = samplePolicy.Conditions.length ∧
    (∀ (i : Nat) (c : ConditionType), samplePolicy.Conditions[i]? = some c →
      ∃ jc : ConditionJSON, samplePolicyJSON.Conditions[i]? = some jc ∧
        jc.Kind = (if c.Condition = ConditionUnless then "unless" else "when")) :=
  policy_marshalJSON_fields samplePolicy samplePolicyJSON (by rfl)

/-- C5: a Decimal-typed leaf value serializes as an extension-call node
named decimal whose single argument is a string node holding the printed
form of the value, and an IP-typed leaf value likewise under the name ip;
neither result carries a plain Value literal. -/
theorem fromNode_decimal_ip_extension (d : Decimal) (a : IPAddr) :
    (NodeJSON.FromNode (.nodeValue (.decimal d)) =
      .ok (NodeJSON.ofExt (.cons "decimal" (.cons (NodeJSON.ofValue (.string d.strRep)) .nil) .nil))) ∧
    (NodeJSON.FromNode (.nodeValue (.ipaddr a)) =
      .ok (NodeJSON.ofExt (.cons "ip" (.cons (NodeJSON.ofValue (.string a.strRep)) .nil) .nil))) ∧
    (NodeJSON.ofExt (.cons "decimal" (.cons (NodeJSON.ofValue (.string d.strRep)) .nil) .nil)).valueOf = none ∧
    (NodeJSON.ofExt (.cons "ip" (.cons (NodeJSON.ofValue (.string a.strRep)) .nil) .nil)).valueOf = none :=
  ⟨rfl, rfl, rfl, rfl⟩

/-- C6: ScopeJSON.FromNode sets Op to "All" for the All scope; "==" with
the Entity field for Eq; "in" with the Entity field for In; "in" with the
Entities field for InSet; "is" with EntityType for Is; and "is" with
EntityType plus the In field for IsIn, covering all six cases of the closed
scope union. -/
theorem scopeJSON_fromNode_cases :
    (ScopeJSON.FromNode .scopeTypeAll = .ok { Op := "All" }) ∧
    (∀ e : EntityUID, ScopeJSON.FromNode (.scopeTypeEq e) = .ok { Op := "==", Entity := some e }) ∧
    (∀ e : EntityUID, ScopeJSON.FromNode (.scopeTypeIn e) = .ok { Op := "in", Entity := some e }) ∧
    (∀ es : List EntityUID, ScopeJSON.FromNode (.scopeTypeInSet es) = .ok { Op := "in", Entities := es }) ∧
    (∀ ty : String, ScopeJSON.FromNode (.scopeTypeIs ty) = .ok { Op := "is", EntityType := ty }) ∧
    (∀ (ty : String) (e : EntityUID), ScopeJSON.FromNode (.scopeTypeIsIn ty e) =
      .ok { Op := "is", EntityType := ty, In := some ⟨e⟩ }) :=
  ⟨rfl, fun _ => rfl, fun _ => rfl, fun _ => rfl, fun _ => rfl, fun _ _ => rfl⟩

/-- C7: union exclusivity of the tree-to-canonical reader.  Every tree node
with zero populated recognized keys, and every tree node with two or more,
makes the reader report UnsupportedNodeTypeError carrying the offending
shape; it never resolves the ambiguity by picking the first populated
key. -/
theorem toNode_union_exclusivity (n : NodeJSON)
    (h : n.populatedKeyCount = 0 ∨ 2 ≤ n.populatedKeyCount) :
    NodeJSON.ToNode n = .error ⟨n⟩ := by
  have hne : ¬ n.populatedKeyCount = 1 := by rcases h with h | h <;> omega
  cases n with
  | mk v vr nt ng ad an co ca cy eq gt ge i lt le mu ne o su g h2 ac hs is lk ite st rc ex =>
    simp only [NodeJSON.ToNode]
    rw [if_neg hne]

/-- Witness for C7 at a zero-key node and at a two-key node. -/
theorem toNode_union_exclusivity_witness :
    NodeJSON.ToNode NodeJSON.empty = .error ⟨NodeJSON.empty⟩ ∧
    NodeJSON.ToNode sampleTwoKeyNode = .error ⟨sampleTwoKeyNode⟩ :=
  ⟨toNode_union_exclusivity NodeJSON.empty (Or.inl (by decide)),
   toNode_union_exclusivity sampleTwoKeyNode (Or.inr (by decide))⟩

/-- C8: reconciliation determinism.  Reconciling a policy set against
itself with diffOnly false returns exactly one equal entry per element in
the original order, and with diffOnly true returns the empty sequence. -/
theorem reconcilePolicies_self_deterministic (A : List PolicyInfo) :
    ReconcilePolicies A A false = A.map (fun p => ⟨.equal, p⟩) ∧
    ReconcilePolicies A A true = [] := by
  have hsrc : A.map (classifySource A) = A.map (fun p => PolicyDif.mk .equal p) :=
    List.map_congr_left (fun p hp => classifySource_self hp)
  have hadd : (A.filter fun c => !(A.any fun s => policiesMatch s c)) = [] := by
    refine List.filter_eq_nil_iff.mpr (fun c hc => ?_)
    have hany : (A.any fun s => policiesMatch s c) = true :=
      List.any_eq_true.mpr ⟨c, hc, policiesMatch_refl c⟩
    simp [hany]
  constructor
  · unfold ReconcilePolicies
    rw [hsrc, hadd]
    simp
  · unfold ReconcilePolicies
    rw [hsrc, hadd]
    refine List.filter_eq_nil_iff.mpr (fun d hd => ?_)
    simp only [List.map_nil, List.append_nil] at hd
    rcases List.mem_map.mp hd with ⟨p, hp, rfl⟩
    simp

/-- C9: extension-call priority of NodeJSON.MarshalJSON.  Every node whose
extension-call map is non-empty serializes, without error, as the
extension-call object alone: the output is built from the ExtensionCall
field only, so every other populated variant field is omitted rather than
making the serialization fail. -/
theorem marshalJSON_extensionCall_priority (j : NodeJSON)
    (hx : j.extensionCallOf.length > 0) :
    NodeJSON.MarshalJSON j = .ok (.obj (marshalExtEntries j.extensionCallOf)) := by
  unfold NodeJSON.MarshalJSON
  rw [if_pos hx]

/-- Witness for C9 at a node with both a Value literal and an extension
call populated. -/
theorem marshalJSON_extensionCall_priority_witness :
    sampleMultiNode.extensionCallOf.length > 0 ∧
    NodeJSON.MarshalJSON sampleMultiNode =
      .ok (.obj (marshalExtEntries sampleMultiNode.extensionCallOf)) :=
  ⟨by decide, marshalJSON_extensionCall_priority sampleMultiNode (by decide)⟩

/-- C10: GetAppEngineApplications returns an empty list with a nil error on
a 404 response, an empty list with the error when the GET fails or the body
fails to decode, and otherwise exactly one ApplicationInfo built from the
decoded application. -/
theorem getAppEngineApplications_cases :
    (∀ e : String, GetAppEngineApplications (.failure e) = ([], some e)) ∧
    (∀ b : DecodeResult, GetAppEngineApplications (.response 404 b) = ([], none)) ∧
    (∀ (sc : Nat) (e : String), sc ≠ 404 →
      GetAppEngineApplications (.response sc (.fail e)) = ([], some e)) ∧
    (∀ (sc : Nat) (app : GoogleApplication), sc ≠ 404 →
      GetAppEngineApplications (.response sc (.ok app)) =
        ([⟨app.Id, app.Name, app.DefaultHostname, "AppEngine"⟩], none)) := by
  refine ⟨fun e => rfl, fun b => rfl, fun sc e h => ?_, fun sc app h => ?_⟩
  · simp only [GetAppEngineApplications]
    rw [if_neg h]
  · simp only [GetAppEngineApplications]
    rw [if_neg h]

/-- Witness for C10 at concrete non-404 responses. -/
theorem getAppEngineApplications_cases_witness :
    GetAppEngineApplications (.response 200 (.ok ⟨"app-id", "app-name", "app-host"⟩)) =
      ([⟨"app-id", "app-name", "app-host", "AppEngine"⟩], none) ∧
    GetAppEngineApplications (.response 500 (.fail "decode failed")) =
      ([], some "decode failed") :=
  ⟨getAppEngineApplications_cases.2.2.2 200 ⟨"app-id", "app-name", "app-host"⟩ (by decide),
   getAppEngineApplications_cases.2.2.1 500 "decode failed" (by decide)⟩

end Spec2Proof
